import Mathlib

/-!
Verification of the spotify2bs resolution engine.

A shallow embedding of `src/spotify2bs.py`: the tiered catalog search
(`beat_search`, including its tenacity retry decorator), the candidate
selector (`best_map`), the archive acquirer (`download_and_extract`) and
the per-track resolution loop (`main`).

Modelling conventions:
* Python strings are Lean `String`; `str.lower()` is `pyLower` below
  (ASCII case folding, which agrees with Python on all inputs used here).
* Python floats (catalog quality scores, fuzzy-similarity scores) are `ℚ`.
* HTTP traffic is an oracle: a `Response` (status plus parsed `docs` list)
  for every GET the program issues.  `beat_search` is wrapped by tenacity
  in a retry loop, so its oracle is indexed by attempt number and tier.
* The external `rapidfuzz.fuzz.partial_ratio` scorer is a parameter
  `pr : String → String → ℚ` of the selector (it is library code, not part
  of this repository); the selector only compares its value against 80.
* Exceptions become `Except`; file-system effects of the acquirer become an
  explicit `FsState` record threaded through the function.
-/

namespace Spotify2bs

/-- Constant `MIN_RATE = 0.5` — minimum required score to accept a map. -/
def MIN_RATE : ℚ := mkRat 1 2

/-- Python `str.lower()` on one character (ASCII case folding). -/
def pyLowerChar (c : Char) : Char :=
  if 'A' ≤ c && c ≤ 'Z' then Char.ofNat (c.toNat + 32) else c

/-- Python `str.lower()` (ASCII case folding). -/
def pyLower (s : String) : String :=
  String.mk (s.toList.map pyLowerChar)

/-- Constant `OUT_DIR = "maps"` — directory for ZIP files and extracted content. -/
def OUT_DIR : String := "maps"

/-! ## Catalog documents

A BeatSaver doc is a JSON object; `best_map` reads
`d.get("metadata", dict()).get("songName", d.get("name", ""))`,
`d.get("metadata", dict()).get("songAuthorName", "")` and
`d.get("stats", dict()).get("score", 0)`, so we model exactly the fields those
accessor chains touch, each optional as in the JSON. -/

structure Metadata where
  songName : Option String
  songAuthorName : Option String
deriving DecidableEq

structure Stats where
  score : Option ℚ
deriving DecidableEq

structure Doc where
  id : String
  name : Option String
  metadata : Option Metadata
  stats : Option Stats
deriving DecidableEq

/-- Accessor `d.get("metadata", dict()).get("songName", d.get("name", ""))`. -/
def displayName (d : Doc) : String :=
  ((d.metadata.bind Metadata.songName).getD (d.name.getD ""))

/-- Accessor `d.get("metadata", dict()).get("songAuthorName", "")`. -/
def docAuthor (d : Doc) : String :=
  ((d.metadata.bind Metadata.songAuthorName).getD "")

/-- Accessor `d.get("stats", dict()).get("score", 0)`. -/
def docScore (d : Doc) : ℚ :=
  ((d.stats.bind Stats.score).getD 0)

/-! ## Candidate selector (`best_map`, filtering part, lines 126–147)

`best_map` first filters `docs` keeping a doc iff its display name equals
the target track case-insensitively and, when an artist name is provided
(Python truthiness: not `None` and not empty), the fuzzy partial similarity
of the case-folded artist/author pair is not below 80. -/

/-- Test `name.lower() == track_name.lower()`. -/
def titleMatches (track_name : String) (d : Doc) : Bool :=
  pyLower (displayName d) == pyLower track_name

/-- The body of the `for d in docs:` filter loop: keep `d` iff the title
matches and (when `artist_name` is truthy) the artist gate does not
`continue`.  `pr` models `fuzz.partial_ratio`. -/
def keepDoc (pr : String → String → ℚ) (track_name : String)
    (artist_name : Option String) (d : Doc) : Bool :=
  titleMatches track_name d &&
    (match artist_name with
     | none => true
     | some a =>
       if a = "" then true
       else !(decide (pr (pyLower a) (pyLower (docAuthor d)) < 80)))

/-- The `filtered` list built by `best_map`. -/
def filteredDocs (pr : String → String → ℚ) (track_name : String)
    (artist_name : Option String) (docs : List Doc) : List Doc :=
  docs.filter (keepDoc pr track_name artist_name)

/-! The call `filtered.sort(key=..., reverse=True)` is the stable sort of
Python, descending by score (CPython documents that `reverse=True`
preserves stability).  We embed it as the standard stable insertion sort for the
descending-by-`docScore` preorder. -/

/-- Stable descending insert: a doc goes in front of the first element
whose score is not larger (so earlier elements win ties). -/
def insertDesc (d : Doc) : List Doc → List Doc
  | [] => [d]
  | e :: es => if docScore e ≤ docScore d then d :: e :: es else e :: insertDesc d es

/-- Stable sort, descending by `docScore`. -/
def sortDesc : List Doc → List Doc
  | [] => []
  | d :: ds => insertDesc d (sortDesc ds)

/-- Body of `best_map` after the search: filter, sort descending, take the top and
apply the `MIN_RATE` threshold. -/
def best_map_select (pr : String → String → ℚ) (track_name : String)
    (artist_name : Option String) (docs : List Doc) : Option Doc :=
  let filtered := filteredDocs pr track_name artist_name docs
  if filtered.isEmpty then none
  else
    match sortDesc filtered with
    | [] => none
    | top :: _ => if MIN_RATE ≤ docScore top then some top else none

/-- Specification-side selector: the first element of a list attaining the
maximal score (ties broken by original position). -/
def firstMax : List Doc → Option Doc
  | [] => none
  | d :: ds =>
    match firstMax ds with
    | none => some d
    | some m => if docScore m ≤ docScore d then some d else some m

/-! ## Tiered search (`beat_search`, lines 74–121)

Each tier issues one GET; the oracle answers with a `Response` (status and
the parsed `docs` field, absent field = `[]`).  The per-tier response
handling is: 404 ⇒ empty list, status ≥ 500 ⇒ `raise requests.HTTPError()`,
otherwise `r.raise_for_status()` (which raises `requests.HTTPError` exactly
when 400 ≤ status < 600) and then the docs.  The tenacity decorator
`@retry(retry=retry_if_exception_type(requests.HTTPError), stop=stop_after_attempt(3))`
re-runs the whole function on `HTTPError`, up to 3 attempts in total.  -/

structure Response where
  status : Nat
  docs : List Doc
deriving DecidableEq

inductive Tier where
  | quoted
  | text
  | advanced
deriving DecidableEq

/-- The only exception `beat_search` raises itself: `requests.HTTPError`
(raised explicitly on 5xx, and by `raise_for_status` on remaining 4xx). -/
inductive SearchErr where
  | httpError
deriving DecidableEq

/-- Per-tier response handling (identical at all three call sites). -/
def tierResult (r : Response) : Except SearchErr (List Doc) :=
  if r.status = 404 then .ok []
  else if 500 ≤ r.status then .error .httpError
  else if 400 ≤ r.status then .error .httpError
  else .ok r.docs

/-- One invocation of the `beat_search` body: try the quoted tier, then the
plain-text tier, then the advanced tier, returning at the first tier whose
doc list is truthy (non-empty); an `HTTPError` aborts the invocation.  The
second component records the tiers actually requested, in order. -/
def beat_search_attempt (net : Tier → Response) :
    Except SearchErr (List Doc) × List Tier :=
  match tierResult (net .quoted) with
  | .error e => (.error e, [.quoted])
  | .ok docs =>
    if docs.isEmpty then
      match tierResult (net .text) with
      | .error e => (.error e, [.quoted, .text])
      | .ok docs2 =>
        if docs2.isEmpty then
          match tierResult (net .advanced) with
          | .error e => (.error e, [.quoted, .text, .advanced])
          | .ok docs3 => (.ok docs3, [.quoted, .text, .advanced])
        else (.ok docs2, [.quoted, .text])
    else (.ok docs, [.quoted])

/-- The tenacity retry loop: `fuel` is the number of retries still allowed
(`stop_after_attempt(3)` ⇒ initial fuel 2), `attempt` numbers the current
invocation.  The log records every GET as (attempt, tier). -/
def retryLoop (net : Nat → Tier → Response) :
    Nat → Nat → Except SearchErr (List Doc) × List (Nat × Tier)
  | fuel, attempt =>
    match beat_search_attempt (net attempt), fuel with
    | (.ok docs, tiers), _ => (.ok docs, tiers.map (fun t => (attempt, t)))
    | (.error e, tiers), 0 => (.error e, tiers.map (fun t => (attempt, t)))
    | (.error _, tiers), fuel2 + 1 =>
      let next := retryLoop net fuel2 (attempt + 1)
      (next.1, tiers.map (fun t => (attempt, t)) ++ next.2)

/-- Function `beat_search` as called by `best_map`: the decorated function, i.e. the
body under the tenacity policy (at most 3 attempts). -/
def beat_search (net : Nat → Tier → Response) :
    Except SearchErr (List Doc) × List (Nat × Tier) :=
  retryLoop net 2 0

/-! ## Archive acquirer (`download_and_extract`, lines 150–171) -/

/-- Characters the sanitizer `re.sub(r"[^A-Za-z0-9- ]", "", s)` keeps. -/
def keepChar (c : Char) : Bool :=
  ('A' ≤ c && c ≤ 'Z') || ('a' ≤ c && c ≤ 'z') || ('0' ≤ c && c ≤ '9') ||
    c == '-' || c == ' '

/-- Python `str.strip()`: drop leading and trailing whitespace. -/
def pyStrip (l : List Char) : List Char :=
  ((l.dropWhile Char.isWhitespace).reverse.dropWhile Char.isWhitespace).reverse

/-- Sanitizer `re.sub(r"[^A-Za-z0-9- ]", "", s).strip().replace(" ", "_")`. -/
def cleanName (s : String) : String :=
  String.mk ((pyStrip (s.toList.filter keepChar)).map
    (fun c => if c = ' ' then '_' else c))

/-- The per-track directory name `f"{artist_clean}-{track_clean}"`
(the single path component appended under `OUT_DIR`). -/
def destDirName (artist track : String) : String :=
  cleanName artist ++ "-" ++ cleanName track

/-- Observable file-system state of the acquisition for one track. -/
structure FsState where
  destDirExists : Bool
  archivePresent : Bool
  extractedAll : Bool
deriving DecidableEq

/-- Function `download_and_extract`, given the HTTP status of the download and whether
`ZipFile.extractall` succeeds (a corrupt archive raises) supplied by the
environment.  Returns the Python result (`Except` for a raised exception,
`.ok b` for `return b`) together with the file-system state: a non-200
download logs and returns `False`; otherwise the directory is created, the
archive written, extraction attempted, and only after `extractall` returns
is the archive unlinked. -/
def download_and_extract (status : Nat) (extractOk : Bool) (fs : FsState) :
    Except Unit Bool × FsState :=
  if status ≠ 200 then (.ok false, fs)
  else
    let fs1 : FsState := { fs with destDirExists := true }
    let fs2 : FsState := { fs1 with archivePresent := true }
    if extractOk then
      let fs3 : FsState := { fs2 with extractedAll := true }
      let fs4 : FsState := { fs3 with archivePresent := false }
      (.ok true, fs4)
    else
      (.error (), fs2)

/-! ## Resolution driver (`main`, lines 175–195)

Per track, `main` runs `best_map` and, on a hit, `download_and_extract`,
inside a `try`/`except Exception` whose handler records the track as
not-found.  At the per-track boundary exactly four outcomes are
observable; the oracle `outcome` assigns one to each track position. -/

structure TrackRef where
  artist : String
  track : String
deriving DecidableEq

/-- Label `f"\x7bartist_name\x7d - \x7btrack_name\x7d"`. -/
def label (t : TrackRef) : String :=
  t.artist ++ " - " ++ t.track

/-- The outcome of the search → select → acquire chain for one track, as
observed at the per-track `try`/`except` boundary in `main`. -/
inductive ChainOutcome where
  /-- Case: `best_map` hit and `download_and_extract` returned `True`. -/
  | downloadedOk
  /-- Case: `best_map` hit but `download_and_extract` returned `False`. -/
  | downloadFailed
  /-- Case: `best_map` returned `None`. -/
  | noHit
  /-- some exception escaped the chain and was caught by the handler. -/
  | raised
deriving DecidableEq

def isDownloadedOutcome : ChainOutcome → Bool
  | .downloadedOk => true
  | _ => false

/-- The accumulation loop of `main`: tracks are processed in order, the
track at position `i` having outcome `outcome i`; a `downloadedOk` track
appends its label to `downloaded`, every other outcome (including a caught
exception) appends it to `not_found`. -/
def runTracks (outcome : Nat → ChainOutcome) (i : Nat) :
    List TrackRef → List String × List String
  | [] => ([], [])
  | t :: ts =>
    let rest := runTracks outcome (i + 1) ts
    match outcome i with
    | .downloadedOk => (label t :: rest.1, rest.2)
    | _ => (rest.1, label t :: rest.2)

/-! ## Concrete instances used in counterexamples and witnesses -/

/-- A one-doc search result. -/
def docW : Doc := { id := "w", name := some "w", metadata := none, stats := none }

/-- Network: every request of attempt 0 gets a 403; afterwards a 200 with
one doc. -/
def cNetC1 : Nat → Tier → Response := fun a _ =>
  if a = 0 then { status := 403, docs := [] } else { status := 200, docs := [docW] }

/-- Network: on attempt 0 the quoted tier yields 200 with no docs and the
text tier a 500; afterwards every request yields a 200 with one doc. -/
def cNetC2 : Nat → Tier → Response := fun a t =>
  if a = 0 then
    (match t with
     | .quoted => { status := 200, docs := [] }
     | .text => { status := 500, docs := [] }
     | .advanced => { status := 200, docs := [] })
  else { status := 200, docs := [docW] }

/-- Network: every request yields a 403. -/
def cNet403 : Nat → Tier → Response := fun _ _ => { status := 403, docs := [] }

/-- Network: every request yields a 200 with one doc. -/
def netW : Nat → Tier → Response := fun _ _ => { status := 200, docs := [docW] }

/-- A constant fuzzy-similarity scorer. -/
def prConst (q : ℚ) : String → String → ℚ := fun _ _ => q

def docFooBar : Doc :=
  { id := "a", name := some "Foo Bar", metadata := none, stats := none }

def docFooBars : Doc :=
  { id := "b", name := some "Foo Bars", metadata := none, stats := none }

def docCand : Doc :=
  { id := "c", name := some "song",
    metadata := some { songName := none, songAuthorName := some "someone" },
    stats := none }

def docNine : Doc :=
  { id := "n", name := some "song", metadata := none,
    stats := some { score := some (mkRat 9 10) } }

def docSeven : Doc :=
  { id := "s", name := some "song", metadata := none,
    stats := some { score := some (mkRat 7 10) } }

/-- Initial file-system state: nothing on disk yet. -/
def fs0 : FsState :=
  { destDirExists := false, archivePresent := false, extractedAll := false }

/-! ## Helper lemmas about the sort used by the selector -/

theorem insertDesc_head (d : Doc) (s : List Doc) :
    (insertDesc d s).head? =
      some (match s.head? with
            | none => d
            | some e => if docScore e ≤ docScore d then d else e) := by
  cases s with
  | nil => rfl
  | cons e es =>
    rw [insertDesc]
    by_cases hc : docScore e ≤ docScore d
    · rw [if_pos hc]; simp [hc]
    · rw [if_neg hc]; simp [hc]

theorem sortDesc_head (l : List Doc) : (sortDesc l).head? = firstMax l := by
  induction l with
  | nil => rfl
  | cons d ds ih =>
    rw [sortDesc, insertDesc_head, ih]
    cases h : firstMax ds with
    | none => simp [firstMax, h]
    | some m =>
      simp only [firstMax, h]
      by_cases hc : docScore m ≤ docScore d <;> simp [hc]

theorem firstMax_eq_none (l : List Doc) : firstMax l = none ↔ l = [] := by
  cases l with
  | nil => simp [firstMax]
  | cons d ds =>
    rw [firstMax]
    cases h : firstMax ds with
    | none => simp
    | some m => by_cases hc : docScore m ≤ docScore d <;> simp [hc]

theorem firstMax_le (l : List Doc) (m : Doc) (h : firstMax l = some m) :
    ∀ d ∈ l, docScore d ≤ docScore m := by
  induction l generalizing m with
  | nil => simp [firstMax] at h
  | cons d ds ih =>
    intro x hx
    rcases List.mem_cons.mp hx with rfl | hx2
    · cases h2 : firstMax ds with
      | none =>
        rw [firstMax, h2] at h
        dsimp only at h
        cases h; exact le_refl _
      | some m2 =>
        rw [firstMax, h2] at h
        dsimp only at h
        by_cases hc : docScore m2 ≤ docScore x
        · rw [if_pos hc] at h; cases h; exact le_refl _
        · rw [if_neg hc] at h; cases h; exact le_of_not_le hc
    · cases h2 : firstMax ds with
      | none => rw [firstMax_eq_none] at h2; subst h2; simp at hx2
      | some m2 =>
        have hle := ih m2 h2 x hx2
        rw [firstMax, h2] at h
        dsimp only at h
        by_cases hc : docScore m2 ≤ docScore d
        · rw [if_pos hc] at h; cases h; exact le_trans hle hc
        · rw [if_neg hc] at h; cases h; exact hle

theorem firstMax_decomp (l : List Doc) (m : Doc) (h : firstMax l = some m) :
    ∃ A B, l = A ++ m :: B ∧ ∀ a ∈ A, docScore a < docScore m := by
  induction l generalizing m with
  | nil => simp [firstMax] at h
  | cons d ds ih =>
    cases h2 : firstMax ds with
    | none =>
      rw [firstMax, h2] at h
      dsimp only at h
      cases h
      exact ⟨[], ds, rfl, by simp⟩
    | some m2 =>
      rw [firstMax, h2] at h
      dsimp only at h
      by_cases hc : docScore m2 ≤ docScore d
      · rw [if_pos hc] at h
        cases h
        exact ⟨[], ds, rfl, by simp⟩
      · rw [if_neg hc] at h
        cases h
        obtain ⟨A, B, hAB, hA⟩ := ih m h2
        refine ⟨d :: A, B, by rw [hAB]; rfl, ?_⟩
        intro a ha
        rcases List.mem_cons.mp ha with rfl | ha2
        · exact lt_of_not_le hc
        · exact hA a ha2

/-! ## Helper lemmas about the tiered search -/

theorem tierResult_clientError (r : Response) (h4 : 400 ≤ r.status)
    (h5 : r.status < 500) (hn : r.status ≠ 404) :
    tierResult r = .error .httpError := by
  rw [tierResult, if_neg hn, if_neg (by omega), if_pos h4]

theorem beat_search_attempt_quoted_error (net1 : Tier → Response) (e : SearchErr)
    (h : tierResult (net1 .quoted) = .error e) :
    beat_search_attempt net1 = (.error e, [.quoted]) := by
  rw [beat_search_attempt, h]

theorem beat_search_attempt_quoted_hit (net1 : Tier → Response) (docs : List Doc)
    (h : tierResult (net1 .quoted) = .ok docs) (hne : docs ≠ []) :
    beat_search_attempt net1 = (.ok docs, [.quoted]) := by
  rw [beat_search_attempt, h]
  dsimp only
  rw [if_neg (by simp [hne])]

theorem beat_search_attempt_tiers_cons (net1 : Tier → Response) :
    ∃ r, (beat_search_attempt net1).2 = Tier.quoted :: r := by
  rw [beat_search_attempt]
  cases h : tierResult (net1 .quoted) with
  | error e => exact ⟨[], rfl⟩
  | ok docs =>
    dsimp only
    by_cases hd : docs.isEmpty
    · rw [if_pos hd]
      cases h2 : tierResult (net1 .text) with
      | error e => exact ⟨[.text], rfl⟩
      | ok docs2 =>
        dsimp only
        by_cases hd2 : docs2.isEmpty
        · rw [if_pos hd2]
          cases h3 : tierResult (net1 .advanced) with
          | error e => exact ⟨[.text, .advanced], rfl⟩
          | ok docs3 => exact ⟨[.text, .advanced], rfl⟩
        · rw [if_neg hd2]; exact ⟨[.text], rfl⟩
    · rw [if_neg hd]; exact ⟨[], rfl⟩

theorem retryLoop_ok (net : Nat → Tier → Response) (fuel attempt : Nat)
    (docs : List Doc) (tiers : List Tier)
    (h : beat_search_attempt (net attempt) = (.ok docs, tiers)) :
    retryLoop net fuel attempt = (.ok docs, tiers.map (fun t => (attempt, t))) := by
  rw [retryLoop.eq_def]
  dsimp only
  rw [h]

theorem retryLoop_error_stop (net : Nat → Tier → Response) (attempt : Nat)
    (e : SearchErr) (tiers : List Tier)
    (h : beat_search_attempt (net attempt) = (.error e, tiers)) :
    retryLoop net 0 attempt = (.error e, tiers.map (fun t => (attempt, t))) := by
  rw [retryLoop.eq_def]
  dsimp only
  rw [h]

theorem retryLoop_error_step (net : Nat → Tier → Response) (fuel2 attempt : Nat)
    (e : SearchErr) (tiers : List Tier)
    (h : beat_search_attempt (net attempt) = (.error e, tiers)) :
    retryLoop net (fuel2 + 1) attempt =
      ((retryLoop net fuel2 (attempt + 1)).1,
        tiers.map (fun t => (attempt, t)) ++ (retryLoop net fuel2 (attempt + 1)).2) := by
  rw [retryLoop.eq_def]
  dsimp only
  rw [h]

theorem retryLoop_log_cons (net : Nat → Tier → Response) (fuel attempt : Nat) :
    ∃ r, (retryLoop net fuel attempt).2 = (attempt, Tier.quoted) :: r := by
  obtain ⟨r, hr⟩ := beat_search_attempt_tiers_cons (net attempt)
  rcases hba : beat_search_attempt (net attempt) with ⟨res, tiers⟩
  rw [hba] at hr
  dsimp only at hr
  subst hr
  cases res with
  | ok docs =>
    rw [retryLoop_ok net fuel attempt docs _ hba]
    exact ⟨r.map (fun t => (attempt, t)), rfl⟩
  | error e =>
    cases fuel with
    | zero =>
      rw [retryLoop_error_stop net attempt e _ hba]
      exact ⟨r.map (fun t => (attempt, t)), rfl⟩
    | succ fuel2 =>
      rw [retryLoop_error_step net fuel2 attempt e _ hba]
      exact ⟨r.map (fun t => (attempt, t)) ++ (retryLoop net fuel2 (attempt + 1)).2, rfl⟩

/-! ## Claim theorems: the tiered search (C1–C3) -/

/-- C1, counterexample: the quoted tier answers 403 (non-2xx, non-404,
below 500) on the first attempt, but the query is *not* propagated as an
immediate hard failure: `raise_for_status` raises `requests.HTTPError`,
which the tenacity decorator retries, and on the second attempt the quoted
tier answers with one doc, so `beat_search` succeeds after issuing a second
request. -/
theorem beat_search_4xx_retried_counterexample :
    (cNetC1 0 Tier.quoted).status = 403 ∧
    beat_search cNetC1 = (.ok [docW], [(0, .quoted), (1, .quoted)]) :=
  ⟨rfl, rfl⟩

/-- C1 (amended): a non-2xx, non-404, below-500 search response raises
`requests.HTTPError`, so no further tiers are attempted within the current
invocation — but that is the same exception type the 5xx path raises, so it
triggers the same tenacity retry policy (the whole function is re-invoked,
up to 3 attempts total); only after the attempts are exhausted is it
propagated as a hard failure for the query.  Here: on every attempt the
quoted tier answers with such a status, and the search performs exactly three
quoted-tier requests and then fails hard. -/
theorem beat_search_4xx_hard_failure (net : Nat → Tier → Response)
    (h0 : 400 ≤ (net 0 .quoted).status ∧ (net 0 .quoted).status < 500 ∧
      (net 0 .quoted).status ≠ 404)
    (h1 : 400 ≤ (net 1 .quoted).status ∧ (net 1 .quoted).status < 500 ∧
      (net 1 .quoted).status ≠ 404)
    (h2 : 400 ≤ (net 2 .quoted).status ∧ (net 2 .quoted).status < 500 ∧
      (net 2 .quoted).status ≠ 404) :
    beat_search net = (.error .httpError, [(0, .quoted), (1, .quoted), (2, .quoted)]) := by
  have a0 := beat_search_attempt_quoted_error (net 0) .httpError
    (tierResult_clientError _ h0.1 h0.2.1 h0.2.2)
  have a1 := beat_search_attempt_quoted_error (net 1) .httpError
    (tierResult_clientError _ h1.1 h1.2.1 h1.2.2)
  have a2 := beat_search_attempt_quoted_error (net 2) .httpError
    (tierResult_clientError _ h2.1 h2.2.1 h2.2.2)
  have s0 : retryLoop net 2 0 =
      ((retryLoop net 1 1).1, [(0, Tier.quoted)] ++ (retryLoop net 1 1).2) :=
    retryLoop_error_step net 1 0 .httpError [Tier.quoted] a0
  have s1 : retryLoop net 1 1 =
      ((retryLoop net 0 2).1, [(1, Tier.quoted)] ++ (retryLoop net 0 2).2) :=
    retryLoop_error_step net 0 1 .httpError [Tier.quoted] a1
  have s2 : retryLoop net 0 2 = (.error .httpError, [(2, Tier.quoted)]) :=
    retryLoop_error_stop net 2 .httpError [Tier.quoted] a2
  rw [beat_search, s0, s1, s2]
  rfl

/-- Witness for `beat_search_4xx_hard_failure`: an all-403 network. -/
theorem beat_search_4xx_hard_failure_witness :
    beat_search cNet403 = (.error .httpError, [(0, .quoted), (1, .quoted), (2, .quoted)]) :=
  beat_search_4xx_hard_failure cNet403 (by refine ⟨?_, ?_, ?_⟩ <;> decide)
    (by refine ⟨?_, ?_, ?_⟩ <;> decide) (by refine ⟨?_, ?_, ?_⟩ <;> decide)

/-- C2, counterexample: on attempt 0 the quoted tier returns an empty 200
and the plain-text tier returns a 500; the retry then re-runs the whole
function, re-issuing the tier-1 quoted request (the log records
`(1, quoted)`), contradicting "tiers already attempted are never
replayed". -/
theorem beat_search_tier1_replayed_counterexample :
    (cNetC2 0 Tier.text).status = 500 ∧
    beat_search cNetC2 = (.ok [docW], [(0, .quoted), (0, .text), (1, .quoted)]) :=
  ⟨rfl, rfl⟩

/-- C2 (amended): the tenacity retry policy is attached to the whole
three-tier `beat_search` function, not to the individual tier calls: a 5xx
failure while issuing the tier-2 (plain-text) request aborts the
invocation and the next attempt starts again from the tier-1 (quoted)
request.  The first three logged requests are the quoted and text tiers of
attempt 0 followed by the quoted tier of attempt 1. -/
theorem beat_search_retry_replays_tiers (net : Nat → Tier → Response)
    (hq : tierResult (net 0 .quoted) = .ok [])
    (ht : 500 ≤ (net 0 .text).status) :
    ((beat_search net).2.take 3) = [(0, .quoted), (0, .text), (1, .quoted)] := by
  have htext : tierResult (net 0 .text) = .error .httpError := by
    rw [tierResult, if_neg (by omega), if_pos ht]
  have a0 : beat_search_attempt (net 0) = (.error .httpError, [.quoted, .text]) := by
    rw [beat_search_attempt, hq]
    dsimp only
    rw [if_pos (by simp), htext]
  have s0 : retryLoop net 2 0 =
      ((retryLoop net 1 1).1,
        [(0, Tier.quoted), (0, Tier.text)] ++ (retryLoop net 1 1).2) :=
    retryLoop_error_step net 1 0 .httpError [Tier.quoted, Tier.text] a0
  obtain ⟨r, hr⟩ := retryLoop_log_cons net 1 1
  rw [beat_search, s0]
  dsimp only
  rw [hr]
  rfl

/-- Witness for `beat_search_retry_replays_tiers` at the concrete network
`cNetC2`. -/
theorem beat_search_retry_replays_tiers_witness :
    ((beat_search cNetC2).2.take 3) = [(0, .quoted), (0, .text), (1, .quoted)] :=
  beat_search_retry_replays_tiers cNetC2 rfl (by decide)

/-- C3: the three tiers are evaluated in the fixed order quoted,
plain-text, advanced, short-circuiting at the first tier whose result list
is non-empty; in particular, when the quoted tier returns at least one doc
the search returns those docs after issuing only the single quoted-tier
request, and the plain-text and advanced tiers are never invoked. -/
theorem beat_search_tier_short_circuit (net : Nat → Tier → Response) :
    (∀ docs, tierResult (net 0 .quoted) = .ok docs → docs ≠ [] →
       beat_search net = (.ok docs, [(0, .quoted)]))
    ∧ (∀ docs, tierResult (net 0 .quoted) = .ok [] →
         tierResult (net 0 .text) = .ok docs → docs ≠ [] →
         beat_search net = (.ok docs, [(0, .quoted), (0, .text)]))
    ∧ (∀ docs, tierResult (net 0 .quoted) = .ok [] →
         tierResult (net 0 .text) = .ok [] →
         tierResult (net 0 .advanced) = .ok docs →
         beat_search net = (.ok docs, [(0, .quoted), (0, .text), (0, .advanced)])) := by
  refine ⟨?_, ?_, ?_⟩
  · intro docs hq hne
    have a0 := beat_search_attempt_quoted_hit (net 0) docs hq hne
    rw [beat_search, retryLoop_ok net 2 0 docs _ a0]
    rfl
  · intro docs hq ht hne
    have a0 : beat_search_attempt (net 0) = (.ok docs, [.quoted, .text]) := by
      rw [beat_search_attempt, hq]
      dsimp only
      rw [if_pos (by simp), ht]
      dsimp only
      rw [if_neg (by simp [hne])]
    rw [beat_search, retryLoop_ok net 2 0 docs _ a0]
    rfl
  · intro docs hq ht ha
    have a0 : beat_search_attempt (net 0) = (.ok docs, [.quoted, .text, .advanced]) := by
      rw [beat_search_attempt, hq]
      dsimp only
      rw [if_pos (by simp), ht]
      dsimp only
      rw [if_pos (by simp), ha]
    rw [beat_search, retryLoop_ok net 2 0 docs _ a0]
    rfl

/-- Witness for `beat_search_tier_short_circuit`: a network whose quoted
tier answers 200 with one doc. -/
theorem beat_search_tier_short_circuit_witness :
    beat_search netW = (.ok [docW], [(0, .quoted)]) :=
  (beat_search_tier_short_circuit netW).1 [docW] rfl (by simp)

/-! ## Claim theorems: the candidate selector (C4–C6) -/

/-- C4: with no artist provided, the filter keeps exactly the candidates
whose display name equals the target case-insensitively (and the title
condition is necessary whatever the artist argument); the match is exact
apart from case folding: a candidate titled "Foo Bar" passes for target
"foo bar" while "Foo Bars" does not. -/
theorem exact_title_filter (pr : String → String → ℚ) :
    (∀ (track : String) (docs : List Doc),
        filteredDocs pr track none docs =
          docs.filter (fun d => pyLower (displayName d) == pyLower track))
    ∧ (∀ (track : String) (artist : Option String) (docs : List Doc) (d : Doc),
        d ∈ filteredDocs pr track artist docs →
          pyLower (displayName d) = pyLower track)
    ∧ filteredDocs pr "foo bar" none [docFooBar, docFooBars] = [docFooBar] := by
  refine ⟨?_, ?_, ?_⟩
  · intro track docs
    apply List.filter_congr
    intro d _
    simp [keepDoc, titleMatches]
  · intro track artist docs d hd
    have hk := (List.mem_filter.mp hd).2
    rw [keepDoc.eq_def, Bool.and_eq_true] at hk
    have h1 := hk.1
    rwa [titleMatches, beq_iff_eq] at h1
  · rfl

/-- Witness for `exact_title_filter`: the title condition holds of the
kept candidate `docFooBar`. -/
theorem exact_title_filter_witness :
    pyLower (displayName docFooBar) = pyLower "foo bar" :=
  (exact_title_filter (prConst 100)).2.1 "foo bar" none [docFooBar] docFooBar
    (by decide)

/-- C5: for a provided non-empty target artist, a title-matching candidate
is kept exactly when the case-folded partial similarity of artist and
author is not strictly below 80; at a score of exactly 80 the candidate is
retained, at 79 it is rejected. -/
theorem artist_gate_boundary :
    (∀ (pr : String → String → ℚ) (track artist : String) (docs : List Doc) (d : Doc),
        artist ≠ "" →
        (d ∈ filteredDocs pr track (some artist) docs ↔
          d ∈ docs ∧ titleMatches track d = true ∧
            80 ≤ pr (pyLower artist) (pyLower (docAuthor d))))
    ∧ filteredDocs (prConst 80) "song" (some "artist") [docCand] = [docCand]
    ∧ filteredDocs (prConst 79) "song" (some "artist") [docCand] = [] := by
  refine ⟨?_, ?_, ?_⟩
  · intro pr track artist docs d hne
    rw [filteredDocs, List.mem_filter]
    simp [keepDoc, hne, not_lt, and_assoc]
  · decide
  · decide

/-- Witness for `artist_gate_boundary`: the membership characterisation
instantiated for the retained candidate at similarity exactly 80. -/
theorem artist_gate_boundary_witness :
    docCand ∈ filteredDocs (prConst 80) "song" (some "artist") [docCand] ↔
      docCand ∈ [docCand] ∧ titleMatches "song" docCand = true ∧
        80 ≤ prConst 80 (pyLower "artist") (pyLower (docAuthor docCand)) :=
  artist_gate_boundary.1 (prConst 80) "song" "artist" [docCand] docCand
    (by decide)

/-- C6: on a non-empty list of surviving candidates the selector returns
the candidate `m` with the highest quality score when that score reaches
`MIN_RATE` and `none` otherwise; `m` is the *first* maximal-score survivor
(every earlier survivor scores strictly lower), so ties at the top are
broken by original relative order and the selection is reproducible. -/
theorem best_map_select_spec (pr : String → String → ℚ) (track : String)
    (artist : Option String) (docs : List Doc)
    (h : filteredDocs pr track artist docs ≠ []) :
    ∃ m A B,
      firstMax (filteredDocs pr track artist docs) = some m ∧
      filteredDocs pr track artist docs = A ++ m :: B ∧
      (∀ a ∈ A, docScore a < docScore m) ∧
      (∀ d ∈ filteredDocs pr track artist docs, docScore d ≤ docScore m) ∧
      best_map_select pr track artist docs =
        (if MIN_RATE ≤ docScore m then some m else none) := by
  cases hfm : firstMax (filteredDocs pr track artist docs) with
  | none => exact absurd ((firstMax_eq_none _).mp hfm) h
  | some m =>
    obtain ⟨A, B, hAB, hA⟩ := firstMax_decomp _ m hfm
    refine ⟨m, A, B, rfl, hAB, hA, firstMax_le _ m hfm, ?_⟩
    have hh : (sortDesc (filteredDocs pr track artist docs)).head? = some m := by
      rw [sortDesc_head, hfm]
    rw [best_map_select]
    rw [if_neg (by simp [List.isEmpty_iff, h])]
    cases hs : sortDesc (filteredDocs pr track artist docs) with
    | nil => rw [hs] at hh; simp at hh
    | cons top rest =>
      rw [hs] at hh
      simp only [List.head?_cons, Option.some.injEq] at hh
      subst hh
      rfl

/-- Witness for `best_map_select_spec`: two surviving candidates scored
0.9 and 0.7; the selector picks the 0.9 one (0.9 ≥ MIN_RATE). -/
theorem best_map_select_spec_witness :
    (∃ m A B,
      firstMax (filteredDocs (prConst 100) "song" none [docNine, docSeven]) = some m ∧
      filteredDocs (prConst 100) "song" none [docNine, docSeven] = A ++ m :: B ∧
      (∀ a ∈ A, docScore a < docScore m) ∧
      (∀ d ∈ filteredDocs (prConst 100) "song" none [docNine, docSeven],
        docScore d ≤ docScore m) ∧
      best_map_select (prConst 100) "song" none [docNine, docSeven] =
        (if MIN_RATE ≤ docScore m then some m else none))
    ∧ best_map_select (prConst 100) "song" none [docNine, docSeven] = some docNine := by
  constructor
  · exact best_map_select_spec (prConst 100) "song" none [docNine, docSeven] (by decide)
  · decide

/-! ## Claim theorems: archive destination and acquirer (C7, C8) -/

theorem mem_of_mem_dropWhile {p : Char → Bool} {c : Char} :
    ∀ {l : List Char}, c ∈ l.dropWhile p → c ∈ l := by
  intro l
  induction l with
  | nil => intro h; exact h
  | cons a as ih =>
    intro h
    rw [List.dropWhile] at h
    cases hp : p a with
    | true => rw [hp] at h; exact List.mem_cons_of_mem a (ih h)
    | false => rw [hp] at h; exact h

theorem mem_of_mem_pyStrip {c : Char} {l : List Char} (h : c ∈ pyStrip l) :
    c ∈ l := by
  rw [pyStrip, List.mem_reverse] at h
  have h2 := mem_of_mem_dropWhile h
  rw [List.mem_reverse] at h2
  exact mem_of_mem_dropWhile h2

theorem cleanName_chars {c : Char} {s : String} (h : c ∈ (cleanName s).toList) :
    keepChar c = true ∨ c = '_' := by
  have h2 : c ∈ (pyStrip (s.toList.filter keepChar)).map
      (fun c => if c = ' ' then '_' else c) := h
  obtain ⟨b, hb, hbc⟩ := List.mem_map.mp h2
  have hb2 : b ∈ s.toList.filter keepChar := mem_of_mem_pyStrip hb
  have hk : keepChar b = true := (List.mem_filter.mp hb2).2
  by_cases hsp : b = ' '
  · right; rw [← hbc, if_pos hsp]
  · left; rw [← hbc, if_neg hsp]; exact hk

/-- C7: the archive destination directory name is
`"{artist_clean}-{track_clean}"` where each part is the input with every
character outside `[A-Za-z0-9- ]` stripped, surrounding whitespace
trimmed and spaces replaced by underscores; consequently the name never
contains `'/'` or `'.'`, and `("AC/DC", "T.N.T.")` yields `"ACDC-TNT"`. -/
theorem dest_dir_sanitized (artist track : String) :
    ('/' ∉ (destDirName artist track).toList ∧
     '.' ∉ (destDirName artist track).toList)
    ∧ destDirName "AC/DC" "T.N.T." = "ACDC-TNT"
    ∧ cleanName "AC/DC" = "ACDC" ∧ cleanName "T.N.T." = "TNT" := by
  have hsplit : (destDirName artist track).toList =
      (cleanName artist).toList ++ '-' :: (cleanName track).toList := by
    show (destDirName artist track).data =
      (cleanName artist).data ++ '-' :: (cleanName track).data
    rw [destDirName, String.data_append, String.data_append, List.append_assoc]
    rfl
  refine ⟨⟨?_, ?_⟩, rfl, rfl, rfl⟩
  · intro hmem
    rw [hsplit] at hmem
    rcases List.mem_append.mp hmem with hL | hR
    · rcases cleanName_chars hL with hk | hu
      · exact absurd hk (by decide)
      · exact absurd hu (by decide)
    · rcases List.mem_cons.mp hR with hd | hT
      · exact absurd hd (by decide)
      · rcases cleanName_chars hT with hk | hu
        · exact absurd hk (by decide)
        · exact absurd hu (by decide)
  · intro hmem
    rw [hsplit] at hmem
    rcases List.mem_append.mp hmem with hL | hR
    · rcases cleanName_chars hL with hk | hu
      · exact absurd hk (by decide)
      · exact absurd hu (by decide)
    · rcases List.mem_cons.mp hR with hd | hT
      · exact absurd hd (by decide)
      · rcases cleanName_chars hT with hk | hu
        · exact absurd hk (by decide)
        · exact absurd hu (by decide)

/-- Witness for `dest_dir_sanitized` at the concrete pair
`("AC/DC", "T.N.T.")`. -/
theorem dest_dir_sanitized_witness :
    destDirName "AC/DC" "T.N.T." = "ACDC-TNT" ∧
    ('/' ∈ (destDirName "AC/DC" "T.N.T.").toList → False) :=
  ⟨(dest_dir_sanitized "AC/DC" "T.N.T.").2.1,
   fun h => (dest_dir_sanitized "AC/DC" "T.N.T.").1.1 h⟩

/-- C8: on a 200 download whose extraction raises (corrupt archive), the
exception propagates out of `download_and_extract` (acquisition failure)
and the archive file is still on disk; and whenever the archive ends up
removed, extraction of every entry had completed and the function returned
`True` — the archive is deleted only after full extraction. -/
theorem archive_removed_after_extraction (fs : FsState) (extractOk : Bool) :
    (download_and_extract 200 false fs =
      (.error (), { destDirExists := true, archivePresent := true,
                    extractedAll := fs.extractedAll }))
    ∧ ((download_and_extract 200 extractOk fs).2.archivePresent = false →
        (download_and_extract 200 extractOk fs).2.extractedAll = true ∧
        (download_and_extract 200 extractOk fs).1 = .ok true) := by
  constructor
  · rfl
  · cases extractOk with
    | false => intro hfalse; exact absurd hfalse (by simp [download_and_extract])
    | true => intro _; exact ⟨rfl, rfl⟩

/-- Witness for `archive_removed_after_extraction`: successful extraction
from the empty file-system state removes the archive and returns `True`. -/
theorem archive_removed_after_extraction_witness :
    (download_and_extract 200 true fs0).2.extractedAll = true ∧
    (download_and_extract 200 true fs0).1 = .ok true :=
  (archive_removed_after_extraction fs0 true).2 rfl

/-! ## Claim theorems: resolution driver (C9, C10) -/

theorem runTracks_enumFrom (outcome : Nat → ChainOutcome) :
    ∀ (tracks : List TrackRef) (i : Nat),
      runTracks outcome i tracks =
        (((List.enumFrom i tracks).filter
            (fun p => isDownloadedOutcome (outcome p.1))).map (fun p => label p.2),
         ((List.enumFrom i tracks).filter
            (fun p => !isDownloadedOutcome (outcome p.1))).map (fun p => label p.2)) := by
  intro tracks
  induction tracks with
  | nil => intro i; rfl
  | cons t ts ih =>
    intro i
    cases h : outcome i with
    | downloadedOk =>
      simp [runTracks, List.enumFrom, h, ih (i + 1), isDownloadedOutcome]
    | downloadFailed =>
      simp [runTracks, List.enumFrom, h, ih (i + 1), isDownloadedOutcome]
    | noHit =>
      simp [runTracks, List.enumFrom, h, ih (i + 1), isDownloadedOutcome]
    | raised =>
      simp [runTracks, List.enumFrom, h, ih (i + 1), isDownloadedOutcome]

/-- C9: whatever per-track outcomes occur — including an exception caught
at the per-track boundary (`ChainOutcome.raised`) — the driver processes
every track: the `downloaded` sequence is exactly the labels
"artist - track" of the tracks whose chain downloaded, and the `not_found`
sequence exactly the labels of all other tracks (exceptions included), each
in processing order.  An exception therefore records its track as
not-found and never aborts the remaining tracks. -/
theorem per_track_isolation (outcome : Nat → ChainOutcome) (tracks : List TrackRef) :
    runTracks outcome 0 tracks =
      (((List.enumFrom 0 tracks).filter
          (fun p => isDownloadedOutcome (outcome p.1))).map (fun p => label p.2),
       ((List.enumFrom 0 tracks).filter
          (fun p => !isDownloadedOutcome (outcome p.1))).map (fun p => label p.2)) :=
  runTracks_enumFrom outcome tracks 0

/-- C10: every track contributes exactly one label to exactly one outcome
sequence: |downloaded| + |not_found| equals the number of input tracks. -/
theorem outcome_partition (outcome : Nat → ChainOutcome) (tracks : List TrackRef) :
    ∀ i, (runTracks outcome i tracks).1.length + (runTracks outcome i tracks).2.length
      = tracks.length := by
  induction tracks with
  | nil => intro i; rfl
  | cons t ts ih =>
    intro i
    have hrec := ih (i + 1)
    cases h : outcome i with
    | downloadedOk => simp [runTracks, h]; omega
    | downloadFailed => simp [runTracks, h]; omega
    | noHit => simp [runTracks, h]; omega
    | raised => simp [runTracks, h]; omega

end Spotify2bs
